import Mathlib

/-!
Verification of the AURA ingestion pipeline (arXiv scraper → LLM enrichment →
SQLite persistence).  The Python sources under `src/processor/src/` are
shallowly embedded: the tolerant LLM-output parsers of `process_text.py`,
the per-record persistence loop of `db_functions.py`, the enrichment loop of
`process_text.py`, the feed-entry normalisation of `scrapers.py` and the
metrics summary of `metrics.py`.
-/

namespace Aura

/-! ## Python string primitives -/

/-- The whitespace characters removed by Python `str.strip()`: everything
`str.isspace()` accepts — the six ASCII whitespace characters, the
separator controls U+1C–U+1F, NEL (U+85), NBSP (U+A0), the Ogham space
mark, the U+2000–U+200A spaces, line/paragraph separators, narrow NBSP,
the medium mathematical space and the ideographic space. -/
def pyWs (c : Char) : Bool :=
  c = ' ' ∨ c = '\t' ∨ c = '\n' ∨ c = '\r' ∨ c = '\x0b' ∨ c = '\x0c' ∨
  c = '\x1c' ∨ c = '\x1d' ∨ c = '\x1e' ∨ c = '\x1f' ∨ c = '\x85' ∨ c = '\xa0' ∨
  c = '\u1680' ∨ ('\u2000' ≤ c ∧ c ≤ '\u200a') ∨ c = '\u2028' ∨ c = '\u2029' ∨
  c = '\u202f' ∨ c = '\u205f' ∨ c = '\u3000'

/-- Python `str.strip()`: drop whitespace from both ends. -/
def pyStrip (s : String) : String :=
  String.mk (((s.data.dropWhile pyWs).reverse.dropWhile pyWs).reverse)

/-- Python `str.split(',')`: split on every separator, keeping empty pieces
(`"".split(',') == ['']`).  `String.splitOn` has the same semantics. -/
def pySplit (s : String) : List String := s.splitOn ","

/-- Drop leading Python whitespace from a character list. -/
def pyWsDrop (cs : List Char) : List Char := cs.dropWhile pyWs

/-- Python truthiness of a string: every string except `""` is truthy. -/
def pyStrTruthy (s : String) : Bool := s ≠ ""

/-! ## `process_text.check_keywords` (src/processor/src/process_text.py:204)

The regex `\[(.*?)\]` (with DOTALL) matches iff some `[` is followed by a
later `]`; the lazy group captures the text between the first such `[` and
the first `]` after it.  `re.findall` of `["\']([^"\']+)["\']` then pulls
the maximal runs of non-quote characters that sit between two quote
characters (the closing quote need not match the opening one, and matches
do not overlap). -/

/-- A Python quote character as used by the keyword regex character class. -/
def isQuote (c : Char) : Bool := c = '"' ∨ c = '\''

/-- `re.search(r'\[(.*?)\]', s, re.DOTALL)`: content of the first bracketed
span, scanning start positions left to right as the regex engine does. -/
def findBracketContent : List Char → Option (List Char)
  | [] => none
  | c :: rest =>
    if c = '[' ∧ ']' ∈ rest then some (rest.takeWhile (fun d => d ≠ ']'))
    else findBracketContent rest

/-- `re.findall(r'["\']([^"\']+)["\']', content)`, fuelled recursion (the
fuel is an upper bound on the number of scanning steps; each step consumes
at least one character). -/
def extractQuotedAux : Nat → List Char → List String
  | 0, _ => []
  | _, [] => []
  | fuel+1, c :: rest =>
    if isQuote c then
      let run := rest.takeWhile (fun d => !(isQuote d))
      match rest.dropWhile (fun d => !(isQuote d)) with
      | [] => []
      | _q :: tail =>
        if run.isEmpty then extractQuotedAux fuel rest
        else String.mk run :: extractQuotedAux fuel tail
    else extractQuotedAux fuel rest

/-- All quoted substrings of a character list, in order. -/
def extractQuoted (cs : List Char) : List String := extractQuotedAux cs.length cs

/-- `check_keywords`: parse a keyword list out of a raw LLM response.
Returns `(keywords_list, success, error_msg)` exactly as the Python does;
the function is total, mirroring that the Python never raises. -/
def checkKeywords (s : String) : List String × Bool × Option String :=
  if s = "" ∨ pyStrip s = "" then
    ([], false, some "Empty response from model")
  else
    match findBracketContent s.data with
    | some content =>
      let kws := extractQuoted content
      if kws.isEmpty then
        ([], false, some "Found list brackets but no quoted keywords inside")
      else
        (kws, true, none)
    | none =>
      ([], false, some "Cannot find valid Python list in response (no square brackets)")

/-! ## `process_text.check_definitions` (src/processor/src/process_text.py:240)

The regex `\{(?:[^{}]|(?:\{[^{}]*\}))*\}` matches a brace-delimited span
whose braces nest at most one level.  Backtracking cannot rescue a failed
attempt (each alternative consumes a forced prefix), so the match is
computed by a deterministic scan; the search tries start positions left to
right. -/

/-- Is the character one of the two braces? -/
def braceChar (c : Char) : Bool := c = '{' ∨ c = '}'

/-- Match the body of the dict regex after an opening brace.  Returns the
body (nested braces included) and the remainder after the closing brace. -/
def matchBodyAux : Nat → List Char → Option (List Char × List Char)
  | 0, _ => none
  | _, [] => none
  | fuel+1, c :: rest =>
    if c = '}' then some ([], rest)
    else if c = '{' then
      let run := rest.takeWhile (fun d => !(braceChar d))
      match rest.dropWhile (fun d => !(braceChar d)) with
      | d :: rest2 =>
        if d = '}' then
          match matchBodyAux fuel rest2 with
          | some (body, r) => some ('{' :: (run ++ '}' :: body), r)
          | none => none
        else none
      | [] => none
    else
      match matchBodyAux fuel rest with
      | some (body, r) => some (c :: body, r)
      | none => none

/-- `re.search` of the dict regex: the first matching span, braces included. -/
def findDictSpan : List Char → Option (List Char)
  | [] => none
  | c :: rest =>
    if c = '{' then
      match matchBodyAux rest.length rest with
      | some (body, _) => some ('{' :: (body ++ ['}']))
      | none => findDictSpan rest
    else findDictSpan rest

/-- Python dict insertion semantics (also those of a dict comprehension and
of a dict literal with duplicate keys): a repeated key keeps its first
position but takes the new value. -/
def pyDictInsert {α : Type} (l : List (String × α)) (k : String) (v : α) :
    List (String × α) :=
  if l.any (fun kv => kv.1 = k) then
    l.map (fun kv => if kv.1 = k then (k, v) else kv)
  else l ++ [(k, v)]

/-- A Python string literal without escape sequences: an opening quote, a
run of characters other than that quote, the closing quote.  Returns the
contents and the remainder.  (Modelled stdlib: the slice of Python string
literal syntax that LLM dictionary output uses; escapes are not modelled.) -/
def parseStrLit : List Char → Option (String × List Char)
  | c :: rest =>
    if isQuote c then
      let run := rest.takeWhile (fun d => d ≠ c)
      match rest.dropWhile (fun d => d ≠ c) with
      | _ :: tail => some (String.mk run, tail)
      | [] => none
    else none
  | [] => none

/-- A dictionary value literal: a string literal or the keyword `None`
(`Option.none` stands for Python `None`). -/
def parseValLit (cs : List Char) : Option (Option String × List Char) :=
  match parseStrLit cs with
  | some (s, rest) => some (some s, rest)
  | none =>
    match cs with
    | 'N' :: 'o' :: 'n' :: 'e' :: rest => some (none, rest)
    | _ => none

/-- Comma-separated `key: value` entries up to the closing brace (trailing
comma allowed, as in Python).  Fuelled; each step consumes a key literal. -/
def parseEntriesAux : Nat → List (String × Option String) → List Char →
    Option (List (String × Option String) × List Char)
  | 0, _, _ => none
  | fuel+1, acc, cs =>
    match parseStrLit (pyWsDrop cs) with
    | none => none
    | some (k, cs1) =>
      match pyWsDrop cs1 with
      | ':' :: cs2 =>
        match parseValLit (pyWsDrop cs2) with
        | none => none
        | some (v, cs3) =>
          let acc' := pyDictInsert acc k v
          match pyWsDrop cs3 with
          | ',' :: cs4 =>
            match pyWsDrop cs4 with
            | '}' :: tail => some (acc', tail)
            | cs5 => parseEntriesAux fuel acc' cs5
          | '}' :: tail => some (acc', tail)
          | _ => none
      | _ => none

/-- `ast.literal_eval` on the matched span, restricted to dictionaries whose
keys are string literals and whose values are string literals or `None`
(the shapes the definition prompt asks the model for).  `Option.none` is a
`ValueError`/`SyntaxError`; a span that is not such a dictionary is treated
as a failure, folding together the Python `not a dict` and exception
branches — both return `(\x7b\x7d, False, error)` to the caller. -/
def pyLiteralEvalDict (s : String) : Option (List (String × Option String)) :=
  match pyWsDrop s.data with
  | '{' :: rest =>
    match pyWsDrop rest with
    | '}' :: tail => if pyWsDrop tail = [] then some [] else none
    | rest' =>
      match parseEntriesAux rest'.length [] rest' with
      | some (entries, tail) => if pyWsDrop tail = [] then some entries else none
      | none => none
  | _ => none

/-- `check_definitions`: parse a keyword→definition mapping out of a raw
LLM response, then filter out entries whose value is falsy (Python `None`
or the empty string) or the literal string `"None"`.  Returns
`(definitions, success, error_msg)`; total, as the Python never raises past
its boundary. -/
def checkDefinitions (s : String) :
    List (String × Option String) × Bool × Option String :=
  if s = "" ∨ pyStrip s = "" then
    ([], false, some "Empty response from model")
  else
    match findDictSpan s.data with
    | some span =>
      match pyLiteralEvalDict (String.mk span) with
      | some entries =>
        let validDefs := entries.filter (fun kv =>
          match kv.2 with
          | some v => v ≠ "" ∧ v ≠ "None"
          | none => false)
        (validDefs, true, none)
      | none => ([], false, some "Failed to parse dictionary")
    | none => ([], false, some "No dictionary found in model response (no curly braces)")

/-- `clean_keywords`: count the definitions that are truthy and not the
literal string `"None"` (src/processor/src/process_text.py:286). -/
def cleanKeywords (defs : List (String × Option String)) : Nat :=
  defs.foldl (fun n kv =>
    match kv.2 with
    | some v => if v ≠ "" ∧ v ≠ "None" then n + 1 else n
    | none => n) 0

/-! ## JSON values

`dump_metadata_to_db` reads its batch with `json.load`, so every paper is a
JSON value (duplicate object keys are collapsed by `json.load`; integer
numerals suffice for the consumed fields). -/

inductive JVal : Type
  | null
  | bool (b : Bool)
  | num (n : Int)
  | str (s : String)
  | arr (l : List JVal)
  | obj (l : List (String × JVal))

/-- Python `repr` of a JSON-shaped value (containers print their elements;
`repr` of a string is modelled with plain single quotes). -/
def pyRepr : JVal → String
  | .null => "None"
  | .bool true => "True"
  | .bool false => "False"
  | .num n => toString n
  | .str s => "'" ++ s ++ "'"
  | .arr l => "[" ++ String.intercalate ", " (l.attach.map (fun v => pyRepr v.1)) ++ "]"
  | .obj l => "\x7b" ++ String.intercalate ", "
      (l.attach.map (fun kv => "'" ++ kv.1.1 ++ "': " ++ pyRepr kv.1.2)) ++ "\x7d"
decreasing_by
  · rcases v with ⟨v, hm⟩
    have h := List.sizeOf_lt_of_mem hm
    simp at h ⊢
    omega
  · rcases kv with ⟨⟨k, v⟩, hm⟩
    have h := List.sizeOf_lt_of_mem hm
    simp at h ⊢
    omega

/-- Python `str` of a JSON-shaped value: identity on strings, `repr`
otherwise (`str(None) == "None"`, `str(True) == "True"`). -/
def pyStr : JVal → String
  | .str s => s
  | v => pyRepr v

/-- Python truthiness of a JSON-shaped value. -/
def pyTruthy : JVal → Bool
  | .null => false
  | .bool b => b
  | .num n => n != 0
  | .str s => s != ""
  | .arr l => !l.isEmpty
  | .obj l => !l.isEmpty

/-- Is the value Python `None` (JSON `null`)? -/
def isPyNone : JVal → Bool
  | .null => true
  | _ => false

/-- Does the value equal the Python string `"None"`?  (Only a string can.) -/
def isStrNone : JVal → Bool
  | .str s => s == "None"
  | _ => false

/-- `d.get(k)` on a JSON object (keys are unique after `json.load`). -/
def pyGet (fields : List (String × JVal)) (k : String) : Option JVal :=
  (fields.find? (fun kv => kv.1 = k)).map (fun kv => kv.2)

/-- `d.get(k, default)` on a JSON object. -/
def pyGetD (fields : List (String × JVal)) (k : String) (d : JVal) : JVal :=
  (pyGet fields k).getD d

/-- The `clean_str` lambda of `dump_metadata_to_db`: strip if the value is a
string, otherwise leave it unchanged. -/
def pyCleanStr : JVal → JVal
  | .str s => .str (pyStrip s)
  | v => v

/-- Values `sqlite3` accepts as bound parameters: `None`, booleans (as
integers), numbers and strings.  Binding a list or dict raises
`InterfaceError`, which the per-record handler catches. -/
def bindable : JVal → Bool
  | .arr _ => false
  | .obj _ => false
  | _ => true

/-- Storage conversion applied by the Python `sqlite3` binding: booleans are
stored as integers.  (Numeric-affinity text coercion is outside the modelled
fragment; no consumed field mixes numeric and text values.) -/
def toStored : JVal → JVal
  | .bool b => .num (if b then 1 else 0)
  | v => v

/-- SQL `=` between a stored value and a bound parameter: `NULL` compares
false with everything, including itself, and values of different storage
classes compare false.  Only bindable values ever reach this comparison
(containers raise before the query executes). -/
def sqlEq (a b : JVal) : Bool :=
  match toStored a, toStored b with
  | .num x, .num y => x == y
  | .str x, .str y => x == y
  | _, _ => false

/-- One character of `json.dumps` string escaping (quotes and backslashes;
the consumed strings contain no control characters). -/
def jsonEscapeChar (c : Char) : String :=
  if c = '"' then "\\\"" else if c = '\\' then "\\\\" else String.singleton c

/-- `json.dumps` of a list of strings, as used by the `json_list` helper. -/
def jsonDumpsList (l : List String) : String :=
  "[" ++ String.intercalate ", "
    (l.map (fun s => "\"" ++ String.join (s.data.map jsonEscapeChar) ++ "\"")) ++ "]"

/-! ## `db_functions.dump_metadata_to_db` (src/processor/src/db_functions.py:154)

The loop body is split into a paper-only preparation phase (everything the
code computes before touching the database) and the database phase
(duplicate check, insert, keyword upserts).  Any Python exception inside the
per-record `try` is an `errored` outcome; the handler rolls the record back,
so `dumpStep` leaves the state unchanged on every non-committed outcome. -/

/-- The filtered definitions comprehension (db_functions.py:189): drop
entries whose value is `None` or the string `"None"`, keep everything else
(including empty strings), keying by `str(k).strip()` and mapping values
through `str`.  A non-dict `definitions` field is replaced by `\x7b\x7d`. -/
def filteredDefs (fields : List (String × JVal)) : List (String × String) :=
  match pyGetD fields "definitions" (.obj []) with
  | .obj l =>
    l.foldl (fun acc kv =>
      if !(isStrNone kv.2) && !(isPyNone kv.2) then
        pyDictInsert acc (pyStrip kv.1) (pyStr kv.2)
      else acc) []
  | _ => []

/-- The filtered definitions of an arbitrary batch record. -/
def recordFilteredDefs : JVal → List (String × String)
  | .obj fields => filteredDefs fields
  | _ => []

/-- `[t.strip() for t in v.split(',') if t.strip()] if isinstance(v, str)
else []` — the tags/authors list builder. -/
def parseStrList (v : Option JVal) : List String :=
  match v with
  | some (.str s) => (pySplit s).filterMap (fun t =>
      let t' := pyStrip t
      if t' = "" then none else some t')
  | _ => []

/-- The keywords list builder (db_functions.py:203): split a string on
commas, iterate any other iterable (`str(k).strip() for k in raw if k`;
iterating a dict yields its keys).  Iterating `None`, a number or a boolean
raises `TypeError` — `Option.none`. -/
def parseKeywords (fields : List (String × JVal)) : Option (List String) :=
  match pyGetD fields "keywords" (.arr []) with
  | .str s => some ((pySplit s).filterMap (fun k =>
      let k' := pyStrip k
      if k' = "" then none else some k'))
  | .arr l => some (l.filterMap (fun k =>
      if pyTruthy k then some (pyStrip (pyStr k)) else none))
  | .obj l => some (l.filterMap (fun kv =>
      if pyStrTruthy kv.1 then some (pyStrip kv.1) else none))
  | _ => none

/-- One row of the `articles` table (schema of db_functions.py:55). -/
structure ArticleRow where
  articleId : Nat
  uuid : JVal
  title : JVal
  dateSubmitted : JVal
  dateScraped : JVal
  tags : JVal
  authors : JVal
  abstract : JVal
  pdfUrl : JVal
  fullArxivUrl : JVal
  fullText : JVal
  keywords : JVal

/-- One row of the `keywords` table.  `paper_references` is stored as a
JSON list of strings; `json.loads ∘ json.dumps` is the identity on it, so
the model keeps the list directly. -/
structure KeywordRow where
  keyword : String
  definition : String
  count : Nat
  paperReferences : List String
deriving DecidableEq, Repr

/-- The database state.  `nextId` is the rowid SQLite will assign to the
next inserted article (`cur.lastrowid`); it starts at 1. -/
structure DB where
  articles : List ArticleRow
  keywords : List KeywordRow
  nextId : Nat

def DB.empty : DB := ⟨[], [], 1⟩

/-- Everything the loop body computes about a record before the duplicate
check: raw title/uuid (bound to the duplicate query), filtered definitions,
serialisable lists and the remaining column values. -/
structure ReadyRec where
  titleRaw : JVal
  uuidRaw : JVal
  defs : List (String × String)
  tagsList : List String
  authorsList : List String
  keywordsList : List String
  dateSubmitted : JVal
  dateScraped : JVal
  abstract : JVal
  pdfUrl : JVal
  fullArxivUrl : JVal
  fullText : JVal

/-- Paper-only outcome of the preparation phase.  `errored` covers the
exceptions reachable before the insert: `.get` on a non-dict record
(`AttributeError`), iterating a non-iterable keywords value (`TypeError`),
and binding a list/dict title or uuid to the duplicate query
(`InterfaceError`). -/
inductive Prep
  | errored
  | noDefs
  | ready (r : ReadyRec)

def prepPaper (p : JVal) : Prep :=
  match p with
  | .obj fields =>
    let defs := filteredDefs fields
    if defs = [] then .noDefs
    else
      match parseKeywords fields with
      | none => .errored
      | some kws =>
        let titleRaw := pyGetD fields "title" (.str "")
        let uuidRaw := pyGetD fields "uuid" (.str "")
        if bindable titleRaw ∧ bindable uuidRaw then
          .ready {
            titleRaw := titleRaw
            uuidRaw := uuidRaw
            defs := defs
            tagsList := parseStrList (pyGet fields "tags")
            authorsList := parseStrList (pyGet fields "authors")
            keywordsList := kws
            dateSubmitted := pyGetD fields "date_submitted" .null
            dateScraped := pyGetD fields "date_scraped" .null
            abstract := pyGetD fields "abstract" .null
            pdfUrl := pyGetD fields "pdf_url" .null
            fullArxivUrl := pyGetD fields "full_arxiv_url" .null
            fullText := pyGetD fields "full_text" .null }
        else .errored
  | _ => .errored

/-- The duplicate query `SELECT article_id FROM articles WHERE title = ? OR
uuid = ?`, bound to the *raw* (uncleaned) title and uuid. -/
def hasDuplicate (db : DB) (titleRaw uuidRaw : JVal) : Bool :=
  db.articles.any (fun r => sqlEq r.title titleRaw || sqlEq r.uuid uuidRaw)

/-- The eight directly-bound values of the article insert (the three list
columns are serialised to JSON strings first and always bindable). -/
def insertVals (r : ReadyRec) : List JVal :=
  [pyCleanStr r.uuidRaw, pyCleanStr r.titleRaw, pyCleanStr r.dateSubmitted,
   r.dateScraped, pyCleanStr r.abstract, pyCleanStr r.pdfUrl,
   pyCleanStr r.fullArxivUrl, pyCleanStr r.fullText]

def insertOk (r : ReadyRec) : Bool := (insertVals r).all bindable

/-- The article row produced by `sql_insert_articles` for rowid `id`. -/
def mkRow (id : Nat) (r : ReadyRec) : ArticleRow :=
  { articleId := id
    uuid := toStored (pyCleanStr r.uuidRaw)
    title := toStored (pyCleanStr r.titleRaw)
    dateSubmitted := toStored (pyCleanStr r.dateSubmitted)
    dateScraped := toStored r.dateScraped
    tags := .str (jsonDumpsList r.tagsList)
    authors := .str (jsonDumpsList r.authorsList)
    abstract := toStored (pyCleanStr r.abstract)
    pdfUrl := toStored (pyCleanStr r.pdfUrl)
    fullArxivUrl := toStored (pyCleanStr r.fullArxivUrl)
    fullText := toStored (pyCleanStr r.fullText)
    keywords := .str (jsonDumpsList r.keywordsList) }

/-- One iteration of the keyword upsert loop (db_functions.py:239) for a
`(keyword, definition)` pair and article id `aid`.  An existing row keeps
its definition; a reference already present leaves the row unchanged (the
`UPDATE` rewrites the same values). -/
def addKeywordEntry (aid : Nat) (table : List KeywordRow) (kv : String × String) :
    List KeywordRow :=
  let ck := pyStrip kv.1
  if ck = "" then table
  else
    match table.find? (fun row => row.keyword = ck) with
    | some row =>
      let newRow :=
        if toString aid ∈ row.paperReferences then row
        else { row with count := row.count + 1
                        paperReferences := row.paperReferences ++ [toString aid] }
      table.map (fun r => if r.keyword = ck then
        { r with count := newRow.count, paperReferences := newRow.paperReferences }
        else r)
    | none => table ++ [⟨ck, pyStrip kv.2, 1, [toString aid]⟩]

/-- The committed state: article row appended, keyword table upserted for
every filtered definition, rowid counter advanced. -/
def commitRecord (db : DB) (r : ReadyRec) : DB :=
  { articles := db.articles ++ [mkRow db.nextId r]
    keywords := r.defs.foldl (addKeywordEntry db.nextId) db.keywords
    nextId := db.nextId + 1 }

/-- Outcome of one loop iteration.  Everything but `committed` leaves the
database unchanged: `noDefs` and `duplicate` roll back explicitly, and the
`except` handler rolls back on any exception (`errored`). -/
inductive Outcome
  | noDefs
  | duplicate
  | committed (db : DB)
  | errored

def processPaper (db : DB) (p : JVal) : Outcome :=
  match prepPaper p with
  | .noDefs => .noDefs
  | .errored => .errored
  | .ready r =>
    if hasDuplicate db r.titleRaw r.uuidRaw then .duplicate
    else if insertOk r then .committed (commitRecord db r)
    else .errored

/-- The state after one loop iteration: commit or rollback. -/
def dumpStep (db : DB) (p : JVal) : DB :=
  match processPaper db p with
  | .committed db' => db'
  | _ => db

/-- `dump_metadata_to_db` over a loaded batch (`data.values()` in order). -/
def dumpBatch (db : DB) (papers : List JVal) : DB := papers.foldl dumpStep db

/-! ## `process_text.generate_keywords_and_defs`
(src/processor/src/process_text.py:305)

One loop iteration over a record, with the two LLM requests abstracted as
oracles giving the `(response, error)` pair the `query_*` helpers return.
Metric increments, recorded errors and the requests actually issued are
collected as an event trace. -/

/-- The slice of a batch record the enrichment loop reads and writes.
`full_text`, `keywords` and `definitions` are absent (`none`) until the
corresponding stage has run. -/
structure SrcRecord where
  abstract : String
  fullText : Option String
  keywords : Option (List String)
  definitions : Option (List (String × Option String))
deriving DecidableEq, Repr

/-- Observable actions of the enrichment loop: metric increments, recorded
structured errors, and the model requests it issues. -/
inductive Event
  | inc (metric : String) (amount : Nat)
  | recErr (category : String) (message : String)
  | kwdQuery (abstract : String)
  | defQuery (keywords : List String)
deriving DecidableEq, Repr

/-- `if not paper.get('full_text')` — absent or empty text is falsy. -/
def recordHasText (p : SrcRecord) : Bool :=
  match p.fullText with
  | some s => s != ""
  | none => false

/-- `query_definitions` returns early with an error when called with no
keywords (process_text.py:117); otherwise the request outcome is the
oracle's. -/
def queryDefinitions (oracle : String × Option String) (keywords : List String) :
    String × Option String :=
  if keywords.isEmpty then ("\x7b\x7d", some "No keywords provided") else oracle

/-- One iteration of the `generate_keywords_and_defs` loop for a record
with the metrics object present.  Every path returns the updated record
(stored into `updated_dict`) and its event trace, in program order. -/
def enrichRecord (kwdOracle defOracle : String × Option String) (p : SrcRecord) :
    SrcRecord × List Event :=
  let ev0 := [Event.inc "llm.papers_processed" 1]
  if !(recordHasText p) then
    ({ p with keywords := some [], definitions := some [] },
     ev0 ++ [Event.inc "llm.papers_skipped_no_text" 1])
  else
    let (kwdResp, kwdErr) := kwdOracle
    let evq := ev0 ++ [Event.kwdQuery p.abstract]
    match kwdErr with
    | some e =>
      ({ p with keywords := some [], definitions := some [] },
       evq ++ [Event.inc "llm.keywords_extraction_failed" 1,
               Event.recErr "LLM_ERROR" ("Keyword query failed: " ++ e)])
    | none =>
      let (kws, kOk, kParseErr) := checkKeywords kwdResp
      if !kOk || kws.isEmpty then
        ({ p with keywords := some [], definitions := some [] },
         evq ++ [Event.inc "llm.keywords_extraction_failed" 1,
                 Event.recErr "LLM_ERROR"
                   ("Keyword parsing failed: " ++ kParseErr.getD "None")])
      else
        let ev1 := evq ++ [Event.inc "llm.keywords_extraction_success" 1,
                           Event.inc "llm.total_keywords_extracted" kws.length]
        let (defResp, defErr) := queryDefinitions defOracle kws
        let ev2 := ev1 ++ [Event.defQuery kws]
        match defErr with
        | some e =>
          ({ p with keywords := some kws, definitions := some [] },
           ev2 ++ [Event.inc "llm.definitions_extraction_failed" 1,
                   Event.recErr "LLM_ERROR" ("Definition query failed: " ++ e)])
        | none =>
          let (defs, dOk, dParseErr) := checkDefinitions defResp
          if !dOk then
            ({ p with keywords := some kws, definitions := some [] },
             ev2 ++ [Event.inc "llm.definitions_extraction_failed" 1,
                     Event.recErr "LLM_ERROR"
                       ("Definition parsing failed: " ++ dParseErr.getD "None")])
          else
            let nValid := cleanKeywords defs
            ({ p with keywords := some kws, definitions := some defs },
             ev2 ++ [Event.inc "llm.definitions_extraction_success" 1,
                     Event.inc "llm.total_definitions_extracted" nValid] ++
             (if kws.length - nValid > 0 then
               [Event.inc "llm.keywords_without_definitions" (kws.length - nValid)]
              else []))

/-! ## `scrapers.get_arxiv_metadata` entry handling
(src/processor/src/scrapers.py:117)

A feed entry is abstracted to the fields the loop consumes; `none` models a
missing attribute.  `uuid4()` and `time.time()` are ambient inputs. -/

structure FeedLink where
  linkTitle : Option String
  rel : Option String
  href : Option String
deriving DecidableEq, Repr

/-- A feedparser entry, reduced to the consumed content (`tags` to its
`term` fields, `authors` to the author names). -/
structure FeedEntry where
  title : Option String
  published : Option String
  tags : Option (List String)
  summary : Option String
  link : Option String
  links : Option (List FeedLink)
  authors : Option (List String)
deriving DecidableEq, Repr

/-- The record produced for one feed entry, before download/extraction. -/
structure RawRecord where
  uuid : String
  title : String
  dateSubmitted : Option String
  dateScraped : Int
  tags : Option String
  authors : Option String
  abstract : String
  pdfUrl : Option String
  fullArxivUrl : Option String
  fullText : Option String
deriving DecidableEq, Repr

/-- The pdf-link scan (scrapers.py:127): first related link titled `pdf`,
taking its `href` (which may itself be absent). -/
def findPdfUrl (links : Option (List FeedLink)) : Option String :=
  match links with
  | none => none
  | some ls =>
    match ls.find? (fun l => l.linkTitle == some "pdf" && l.rel == some "related") with
    | some l => l.href
    | none => none

/-- One feed entry normalised into a record; `full_text` starts absent. -/
def parseEntry (uuidStr : String) (now : Int) (e : FeedEntry) : RawRecord :=
  { uuid := uuidStr
    title := match e.title with | some t => pyStrip t | none => "Unknown Title"
    dateSubmitted := e.published.map (fun s => String.mk (s.data.take 10))
    dateScraped := now
    tags := match e.tags with
      | some ts => if ts.isEmpty then none else some (String.intercalate ", " ts)
      | none => none
    authors := e.authors.map (String.intercalate ", ")
    abstract := match e.summary with | some s => pyStrip s | none => ""
    pdfUrl := findPdfUrl e.links
    fullArxivUrl := e.link
    fullText := none }

/-- The download gate of `scrape_papers` (scrape_papers.py:276) and the
extraction gate of `extract_text` (scrape_papers.py:180): `if not pdf_url:
continue` — an absent or empty url is skipped. -/
def downloadAttempted (r : RawRecord) : Bool :=
  match r.pdfUrl with
  | some u => u != ""
  | none => false

/-- The record as the enrichment loop later sees it (via the JSON batch
file): abstract and full text, keywords/definitions not yet set. -/
def toSrcRecord (r : RawRecord) : SrcRecord :=
  { abstract := r.abstract, fullText := r.fullText,
    keywords := none, definitions := none }

/-! ## `metrics.PipelineMetrics.get_summary` (src/processor/src/metrics.py:207)

Division is modelled as a fallible operation (`none` = `ZeroDivisionError`),
so `get_summary` is `Option`-valued and "never raises" is the statement
that it is always `some`.  Fixed-width float formatting is reduced to a
one-decimal rendering; the text content is immaterial to the guard. -/

def safeDiv (a b : ℚ) : Option ℚ := if b = 0 then none else some (a / b)

/-- One-decimal rendering standing in for `f"\x7bx:.1f\x7d"`. -/
def fmt1 (x : ℚ) : String :=
  let n : Int := ⌊x * 10⌋
  toString (n / 10) ++ "." ++ toString (n % 10)

/-- `PipelineMetrics._percent` (metrics.py:318): `"N/A"` on a zero
denominator, otherwise the formatted `numerator / denominator * 100`. -/
def pctStr (n d : Nat) : Option String :=
  if d = 0 then some "N/A"
  else (safeDiv (n : ℚ) (d : ℚ)).map (fun q => fmt1 (q * 100) ++ "%")

structure ScrapeCounters where
  papersRequested : Nat
  metadataFetched : Nat
  pdfsAttempted : Nat
  pdfsDownloaded : Nat
  pdfsFailed : Nat
  textExtractionAttempted : Nat
  textExtractionSucceeded : Nat
  textExtractionFailed : Nat
deriving DecidableEq, Repr

structure LlmCounters where
  papersProcessed : Nat
  papersSkippedNoText : Nat
  keywordsExtractionSuccess : Nat
  keywordsExtractionFailed : Nat
  definitionsExtractionSuccess : Nat
  definitionsExtractionFailed : Nat
  totalKeywordsExtracted : Nat
  totalDefinitionsExtracted : Nat
  keywordsWithoutDefinitions : Nat
deriving DecidableEq, Repr

structure DbCounters where
  papersAttempted : Nat
  papersInserted : Nat
  papersDuplicate : Nat
  papersNoDefinitions : Nat
  papersError : Nat
  keywordsNew : Nat
  keywordsExisting : Nat
  keywordsTotal : Nat
deriving DecidableEq, Repr

/-- The state `get_summary` reads: the three counter groups, the timing
map, the error list and the elapsed `time.time() - start_time`. -/
structure MetricsState where
  runDate : String
  scraping : ScrapeCounters
  llm : LlmCounters
  database : DbCounters
  timing : List (String × ℚ)
  errors : List (String × String × List (String × String))
deriving DecidableEq, Repr

/-- The llm-stage duration lines: present only when `"llm_processing"` was
timed; the per-paper average divides by `max(papers_processed, 1)`. -/
def llmDurationLines (m : MetricsState) : Option (List String) :=
  match m.timing.find? (fun t => t.1 = "llm_processing") with
  | some t => (safeDiv t.2 (max (m.llm.papersProcessed : ℚ) 1)).map (fun avg =>
      ["  Duration:                " ++ fmt1 t.2 ++ "s (avg " ++ fmt1 avg ++ "s per paper)"])
  | none => some []

/-- One line of the timing breakdown: the stage share of the total time,
divided only when `total_time > 0` and `0` otherwise. -/
def timingLine (totalTime : ℚ) (t : String × ℚ) : Option String :=
  (if totalTime > 0 then safeDiv (t.2 * 100) totalTime else some (0 : ℚ)).map
    (fun pct => "  " ++ t.1 ++ " " ++ fmt1 t.2 ++ "s (" ++ fmt1 pct ++ "%)")

/-- The timing breakdown block, emitted only when some stage was timed. -/
def timingBreakdown (m : MetricsState) (totalTime : ℚ) : Option (List String) :=
  if m.timing.isEmpty then some []
  else (m.timing.mapM (timingLine totalTime)).map (fun per =>
    ("TIMING BREAKDOWN:" :: per) ++ ["  TOTAL " ++ fmt1 totalTime ++ "s"])

/-- `get_summary`, with every Python division routed through `safeDiv`:
the three `_percent` groups, the average-seconds-per-paper line (guarded by
`max(..., 1)`) and the timing-breakdown percentages (guarded by
`if total_time > 0`). -/
def getSummary (m : MetricsState) (totalTime : ℚ) : Option String := do
  let p1 ← pctStr m.scraping.metadataFetched m.scraping.papersRequested
  let p2 ← pctStr m.scraping.pdfsDownloaded m.scraping.pdfsAttempted
  let p3 ← pctStr m.scraping.textExtractionSucceeded m.scraping.textExtractionAttempted
  let scrapeLines :=
    ["SCRAPING METRICS:",
     "  Papers requested:        " ++ toString m.scraping.papersRequested,
     "  Metadata fetched:        " ++ toString m.scraping.metadataFetched ++ " (" ++ p1 ++ ")",
     "  PDFs downloaded:         " ++ toString m.scraping.pdfsDownloaded ++ " (" ++ p2 ++ ")",
     "  PDFs failed:             " ++ toString m.scraping.pdfsFailed,
     "  Text extracted:          " ++ toString m.scraping.textExtractionSucceeded ++ " (" ++ p3 ++ ")"] ++
    (match m.timing.find? (fun t => t.1 = "scraping") with
     | some t => ["  Duration:                " ++ fmt1 t.2 ++ "s"]
     | none => [])
  let p4 ← pctStr m.llm.keywordsExtractionSuccess m.llm.papersProcessed
  let p5 ← pctStr m.llm.definitionsExtractionSuccess m.llm.papersProcessed
  let p6 ← pctStr m.llm.totalDefinitionsExtracted m.llm.totalKeywordsExtracted
  let llmDurLines ← llmDurationLines m
  let llmLines :=
    ["LLM PROCESSING METRICS:",
     "  Papers processed:        " ++ toString m.llm.papersProcessed,
     "  Papers skipped (no text): " ++ toString m.llm.papersSkippedNoText,
     "  Keyword extraction:      " ++ toString m.llm.keywordsExtractionSuccess ++ " succeeded, " ++
       toString m.llm.keywordsExtractionFailed ++ " failed (" ++ p4 ++ ")",
     "  Definition extraction:   " ++ toString m.llm.definitionsExtractionSuccess ++ " succeeded, " ++
       toString m.llm.definitionsExtractionFailed ++ " failed (" ++ p5 ++ ")",
     "  Total keywords:          " ++ toString m.llm.totalKeywordsExtracted,
     "  Valid definitions:       " ++ toString m.llm.totalDefinitionsExtracted ++ " (" ++ p6 ++ ")",
     "  Keywords w/o definitions: " ++ toString m.llm.keywordsWithoutDefinitions] ++ llmDurLines
  let p7 ← pctStr m.database.papersInserted m.database.papersAttempted
  let p8 ← pctStr m.database.papersNoDefinitions m.database.papersAttempted
  let dbLines :=
    ["DATABASE METRICS:",
     "  Papers attempted:        " ++ toString m.database.papersAttempted,
     "  Papers inserted:         " ++ toString m.database.papersInserted ++ " (" ++ p7 ++ ")",
     "  Papers duplicate:        " ++ toString m.database.papersDuplicate,
     "  Papers no definitions:   " ++ toString m.database.papersNoDefinitions ++ " (" ++ p8 ++ ")",
     "  Papers error:            " ++ toString m.database.papersError,
     "  New keywords:            " ++ toString m.database.keywordsNew,
     "  Existing keywords:       " ++ toString m.database.keywordsExisting,
     "  Total keywords:          " ++ toString m.database.keywordsTotal] ++
    (match m.timing.find? (fun t => t.1 = "database") with
     | some t => ["  Duration:                " ++ fmt1 t.2 ++ "s"]
     | none => [])
  let errLines :=
    if m.errors.isEmpty then []
    else ("ERRORS (" ++ toString m.errors.length ++ " total):") ::
      m.errors.map (fun e => "  [" ++ e.1 ++ "] " ++ e.2.1)
  let timingLines ← timingBreakdown m totalTime
  let header := ["AURA Pipeline Summary - " ++ m.runDate]
  pure (String.intercalate "\n"
    (header ++ scrapeLines ++ llmLines ++ dbLines ++ errLines ++ timingLines))

/-! ## Derived views and invariants -/

/-- The filtered-definitions view of a record together with the record
shape: the raw title value bound to the duplicate query. -/
def recordTitleRaw : JVal → JVal
  | .obj fields => pyGetD fields "title" (.str "")
  | _ => .null

/-- The raw uuid value bound to the duplicate query. -/
def recordUuidRaw : JVal → JVal
  | .obj fields => pyGetD fields "uuid" (.str "")
  | _ => .null

/-- Well-formedness of the keywords table: keyword texts are unique (the
column is the primary key), every row's `count` equals the number of its
stored references, and the reference list is duplicate-free (a set). -/
def KwTableWF (t : List KeywordRow) : Prop :=
  (t.map (fun r => r.keyword)).Nodup ∧
  ∀ r ∈ t, r.count = r.paperReferences.length ∧ r.paperReferences.Nodup

/-- The per-entry loop of `get_arxiv_metadata`: every parsed entry yields a
record, keyed by its running index (uuid4 values are ambient inputs). -/
def arxivRecords (uuidOf : Nat → String) (now : Int) (entries : List FeedEntry) :
    List RawRecord :=
  entries.enum.map (fun pe => parseEntry (uuidOf pe.1) now pe.2)

/-! ## Concrete fixtures used by witnesses and counterexamples -/

/-- A well-formed record: trimmed uuid/title, one real definition. -/
def wpA : JVal := .obj [("uuid", .str "u1"), ("title", .str "T1"),
  ("definitions", .obj [("alpha", .str "d1")])]

/-- A second record defining the same keyword with different text. -/
def wpB : JVal := .obj [("uuid", .str "u2"), ("title", .str "T2"),
  ("definitions", .obj [("alpha", .str "d2")])]

/-- A record whose single definition value is the empty string: it survives
the persistence filter (which only drops `None` and `"None"`). -/
def cxEmptyDef : JVal := .obj [("uuid", .str "u3"), ("title", .str "T3"),
  ("definitions", .obj [("alpha", .str "")])]

/-- A record that raises inside the loop body: its `keywords` field is JSON
`null`, and iterating `None` raises `TypeError`. -/
def wpErr : JVal := .obj [("uuid", .str "u4"), ("title", .str "T4"),
  ("keywords", .null),
  ("definitions", .obj [("k", .str "d")])]

/-- A record whose title and uuid carry surrounding whitespace: the insert
stores them stripped, but the duplicate query binds them raw. -/
def cxPad : JVal := .obj [("uuid", .str " u5 "), ("title", .str " T5 "),
  ("definitions", .obj [("k", .str "d")])]

/-- A feed entry whose links carry no pdf-designated related link. -/
def cxEntry : FeedEntry :=
  { title := some "Paper Without Pdf"
    published := some "2026-01-28T00:00:00Z"
    tags := some ["cs.AI"]
    summary := some "An abstract."
    link := some "http://arxiv.org/abs/1234"
    links := some [⟨some "Abstract", some "alternate", some "http://arxiv.org/abs/1234"⟩]
    authors := some ["A. Author"] }

end Aura

namespace Aura

/-! ## Theorems -/

/-- If no `[` in the input is followed by a later `]`, the bracket search
fails, exactly as `re.search(r'\[(.*?)\]', s)` does. -/
theorem findBracketContent_eq_none (cs : List Char)
    (h : ¬ ∃ l m r, cs = l ++ '[' :: m ++ ']' :: r) :
    findBracketContent cs = none := by
  induction cs with
  | nil => rfl
  | cons c rest ih =>
    rw [findBracketContent]
    split
    · rename_i hc
      obtain ⟨hc1, hc2⟩ := hc
      obtain ⟨m, r, hmr⟩ := List.append_of_mem hc2
      exact absurd ⟨[], m, r, by simp [hc1, hmr]⟩ h
    · apply ih
      rintro ⟨l, m, r, hd⟩
      exact h ⟨c :: l, m, r, by simp [hd]⟩

/-- C6: `check_keywords` parses `"Here are keywords: ['alpha', 'beta']"` to
`["alpha", "beta"]` with success, and on any input containing no
square-bracket span it returns an empty list, success `false` and an error
message (the function is total — it never raises). -/
theorem checkKeywords_spec :
    checkKeywords "Here are keywords: ['alpha', 'beta']" =
      (["alpha", "beta"], true, none) ∧
    ∀ s : String, (¬ ∃ l m r, s.data = l ++ '[' :: m ++ ']' :: r) →
      (checkKeywords s).1 = [] ∧ (checkKeywords s).2.1 = false ∧
      (checkKeywords s).2.2.isSome = true := by
  refine ⟨by decide, ?_⟩
  intro s h
  rw [checkKeywords]
  split
  · exact ⟨rfl, rfl, rfl⟩
  · rw [findBracketContent_eq_none s.data h]
    exact ⟨rfl, rfl, rfl⟩

/-- Witness for `checkKeywords_spec` at the bracketless input `"nothing"`. -/
theorem checkKeywords_spec_witness :
    (checkKeywords "nothing").1 = [] ∧ (checkKeywords "nothing").2.1 = false ∧
    (checkKeywords "nothing").2.2.isSome = true :=
  checkKeywords_spec.2 "nothing" (by
    rintro ⟨l, m, r, hd⟩
    have hmem : '[' ∈ "nothing".data := by
      rw [hd]
      simp
    revert hmem
    decide)

/-- C5: `check_definitions` parses `"{'alpha': 'def1', 'beta': 'None'}"` to
the filtered mapping `[("alpha", "def1")]` with success (the `"None"`-valued
entry is dropped), and on any input in which the dict regex finds no
brace-delimited span it returns an empty mapping, success `false` and an
error message; the function is total — no input makes it raise. -/
theorem checkDefinitions_spec :
    checkDefinitions "\x7b'alpha': 'def1', 'beta': 'None'\x7d" =
      ([("alpha", some "def1")], true, none) ∧
    ∀ s : String, findDictSpan s.data = none →
      (checkDefinitions s).1 = [] ∧ (checkDefinitions s).2.1 = false ∧
      (checkDefinitions s).2.2.isSome = true := by
  refine ⟨by decide, ?_⟩
  intro s h
  rw [checkDefinitions]
  split
  · exact ⟨rfl, rfl, rfl⟩
  · rw [h]
    exact ⟨rfl, rfl, rfl⟩

/-- Witness for `checkDefinitions_spec` at a braceless input. -/
theorem checkDefinitions_spec_witness :
    (checkDefinitions "no braces").1 = [] ∧
    (checkDefinitions "no braces").2.1 = false ∧
    (checkDefinitions "no braces").2.2.isSome = true :=
  checkDefinitions_spec.2 "no braces" (by decide)

/-- C10: `check_definitions` can succeed with an empty mapping — a parseable
dictionary whose values all filter away still reports success — while
`check_keywords` succeeds only with a non-empty list; and the enrichment
loop counts such a record as a definition-extraction success although it
carries zero valid definitions (`definitions = some []`) into persistence. -/
theorem checkDefinitions_emptySuccess :
    checkDefinitions "\x7b'alpha': 'None'\x7d" = ([], true, none) ∧
    (∀ s : String, (checkKeywords s).2.1 = true → (checkKeywords s).1 ≠ []) ∧
    (enrichRecord ("['alpha']", none) ("\x7b'alpha': 'None'\x7d", none)
      ⟨"an abstract", some "full text", none, none⟩).1.definitions = some [] ∧
    Event.inc "llm.definitions_extraction_success" 1 ∈
      (enrichRecord ("['alpha']", none) ("\x7b'alpha': 'None'\x7d", none)
        ⟨"an abstract", some "full text", none, none⟩).2 := by
  refine ⟨by decide, ?_, by decide, by decide⟩
  intro s
  rw [checkKeywords]
  split
  · intro h
    simp at h
  · split
    · rename_i content heq
      dsimp only
      split
      · intro h
        simp at h
      · rename_i hk
        intro _ he
        exact hk (by simpa using he)
    · intro h
      simp at h

/-- Witness for `checkDefinitions_emptySuccess`: the keyword parser's
success on a concrete input forces a non-empty list. -/
theorem checkDefinitions_emptySuccess_witness :
    (checkKeywords "['x']").1 ≠ [] :=
  checkDefinitions_emptySuccess.2.1 "['x']" (by decide)

/-- C7: after one iteration of the enrichment loop, the record has non-null
`keywords` and `definitions` on every outcome path — no text, keyword query
error, keyword parse failure, definition query error, definition parse
failure and success alike; both are set to a (possibly empty) list/mapping,
never left null. -/
theorem enrichRecord_sets_fields (k d : String × Option String) (p : SrcRecord) :
    ((enrichRecord k d p).1.keywords).isSome = true ∧
    ((enrichRecord k d p).1.definitions).isSome = true := by
  rw [enrichRecord]
  rcases k with ⟨kr, ke⟩
  rcases d with ⟨dr, de⟩
  rcases hck : checkKeywords kr with ⟨kws, kOk, kErr⟩
  dsimp only
  split
  · exact ⟨rfl, rfl⟩
  · cases ke with
    | some e => exact ⟨rfl, rfl⟩
    | none =>
      dsimp only
      split
      · exact ⟨rfl, rfl⟩
      · cases (queryDefinitions (dr, de) kws).2 with
        | some e => exact ⟨rfl, rfl⟩
        | none =>
          cases hb : (checkDefinitions (queryDefinitions (dr, de) kws).1).2.1 <;>
            simp [hb]

/-- `safeDiv` succeeds whenever the denominator is non-zero. -/
theorem safeDiv_isSome (a b : ℚ) (h : b ≠ 0) : (safeDiv a b).isSome = true := by
  rw [safeDiv, if_neg h]
  rfl

/-- `_percent` never fails: a zero denominator short-circuits to `"N/A"`
before the division happens. -/
theorem pctStr_isSome (n d : Nat) : (pctStr n d).isSome = true := by
  rw [pctStr]
  split
  · rfl
  · rename_i hd
    rw [safeDiv, if_neg (by exact_mod_cast hd)]
    rfl

/-- A bind of `Option` succeeds when both stages do. -/
theorem bind_isSome {α β : Type} (x : Option α) (f : α → Option β)
    (hx : x.isSome = true) (hf : ∀ a, (f a).isSome = true) :
    (x >>= f).isSome = true := by
  cases x with
  | none => cases hx
  | some a => exact hf a

/-- `List.mapM` over `Option` succeeds when every element does. -/
theorem mapM_isSome {α β : Type} (f : α → Option β) (l : List α)
    (h : ∀ a ∈ l, (f a).isSome = true) : (l.mapM f).isSome = true := by
  induction l with
  | nil => rfl
  | cons x xs ih =>
    rw [List.mapM_cons]
    apply bind_isSome _ _ (h x (by simp))
    intro b
    apply bind_isSome _ _ (ih (fun a ha => h a (by simp [ha])))
    intro bs
    rfl

/-- The llm duration block always renders: the average divides by
`max(papers_processed, 1)`, which is never zero. -/
theorem llmDurationLines_isSome (m : MetricsState) :
    (llmDurationLines m).isSome = true := by
  rw [llmDurationLines]
  cases m.timing.find? (fun t => t.1 = "llm_processing") with
  | none => rfl
  | some pair =>
    dsimp only
    have h1 : (0 : ℚ) < max (m.llm.papersProcessed : ℚ) 1 :=
      lt_of_lt_of_le one_pos (le_max_right _ _)
    obtain ⟨q, hq⟩ := Option.isSome_iff_exists.mp
      (safeDiv_isSome pair.2 _ (ne_of_gt h1))
    rw [hq]
    rfl

/-- A timing-breakdown line always renders: the division happens only under
the `total_time > 0` guard. -/
theorem timingLine_isSome (t : ℚ) (p : String × ℚ) :
    (timingLine t p).isSome = true := by
  rw [timingLine]
  by_cases ht : t > 0
  · rw [if_pos ht]
    obtain ⟨q, hq⟩ := Option.isSome_iff_exists.mp
      (safeDiv_isSome (p.2 * 100) t (ne_of_gt ht))
    rw [hq]
    rfl
  · rw [if_neg ht]
    rfl

/-- The whole timing block always renders. -/
theorem timingBreakdown_isSome (m : MetricsState) (t : ℚ) :
    (timingBreakdown m t).isSome = true := by
  rw [timingBreakdown]
  split
  · rfl
  · obtain ⟨per, hper⟩ := Option.isSome_iff_exists.mp
      (mapM_isSome (timingLine t) m.timing (fun a _ => timingLine_isSome t a))
    rw [hper]
    rfl

/-- C9: `get_summary` never raises, for every metrics state (all counters
zero included): each percentage with a zero denominator renders `"N/A"`
instead of dividing, the seconds-per-paper average divides by
`max(papers_processed, 1)`, and the timing percentages divide only when the
total elapsed time is positive. -/
theorem getSummary_isSome (m : MetricsState) (t : ℚ) :
    (getSummary m t).isSome = true := by
  obtain ⟨v1, h1⟩ := Option.isSome_iff_exists.mp
    (pctStr_isSome m.scraping.metadataFetched m.scraping.papersRequested)
  obtain ⟨v2, h2⟩ := Option.isSome_iff_exists.mp
    (pctStr_isSome m.scraping.pdfsDownloaded m.scraping.pdfsAttempted)
  obtain ⟨v3, h3⟩ := Option.isSome_iff_exists.mp
    (pctStr_isSome m.scraping.textExtractionSucceeded m.scraping.textExtractionAttempted)
  obtain ⟨v4, h4⟩ := Option.isSome_iff_exists.mp
    (pctStr_isSome m.llm.keywordsExtractionSuccess m.llm.papersProcessed)
  obtain ⟨v5, h5⟩ := Option.isSome_iff_exists.mp
    (pctStr_isSome m.llm.definitionsExtractionSuccess m.llm.papersProcessed)
  obtain ⟨v6, h6⟩ := Option.isSome_iff_exists.mp
    (pctStr_isSome m.llm.totalDefinitionsExtracted m.llm.totalKeywordsExtracted)
  obtain ⟨v7, h7⟩ := Option.isSome_iff_exists.mp
    (pctStr_isSome m.database.papersInserted m.database.papersAttempted)
  obtain ⟨v8, h8⟩ := Option.isSome_iff_exists.mp
    (pctStr_isSome m.database.papersNoDefinitions m.database.papersAttempted)
  obtain ⟨vl, hl⟩ := Option.isSome_iff_exists.mp (llmDurationLines_isSome m)
  obtain ⟨vt, ht⟩ := Option.isSome_iff_exists.mp (timingBreakdown_isSome m t)
  simp [getSummary, h1, h2, h3, h4, h5, h6, h7, h8, hl, ht]

/-- Inversion of the preparation phase: a `ready` record has a non-empty
filtered definitions map, and its raw title/uuid are the record's. -/
theorem prepPaper_ready_defs (p : JVal) (r : ReadyRec) (h : prepPaper p = .ready r) :
    recordFilteredDefs p ≠ [] ∧ r.defs = recordFilteredDefs p ∧
    r.titleRaw = recordTitleRaw p ∧ r.uuidRaw = recordUuidRaw p := by
  cases p with
  | obj fields =>
    rw [prepPaper] at h
    dsimp only at h
    by_cases hd : filteredDefs fields = []
    · rw [if_pos hd] at h
      cases h
    · rw [if_neg hd] at h
      cases hk : parseKeywords fields with
      | none =>
        rw [hk] at h
        cases h
      | some kws =>
        rw [hk] at h
        dsimp only at h
        split at h
        · cases h
          exact ⟨hd, rfl, rfl, rfl⟩
        · cases h
  | null => simp [prepPaper] at h
  | bool b => simp [prepPaper] at h
  | num n => simp [prepPaper] at h
  | str s => simp [prepPaper] at h
  | arr l => simp [prepPaper] at h

/-- Inversion of a committed outcome: the record prepared successfully, no
duplicate was found, all bound values were storable, and the new state is
the committed one. -/
theorem processPaper_committed_inv (db : DB) (p : JVal) (db2 : DB)
    (h : processPaper db p = .committed db2) :
    ∃ r, prepPaper p = .ready r ∧
      hasDuplicate db r.titleRaw r.uuidRaw = false ∧
      insertOk r = true ∧ db2 = commitRecord db r := by
  rw [processPaper] at h
  cases hp : prepPaper p with
  | errored =>
    rw [hp] at h
    cases h
  | noDefs =>
    rw [hp] at h
    cases h
  | ready r =>
    rw [hp] at h
    dsimp only at h
    by_cases hdup : hasDuplicate db r.titleRaw r.uuidRaw = true
    · rw [if_pos hdup] at h
      cases h
    · rw [if_neg hdup] at h
      by_cases hins : insertOk r = true
      · rw [if_pos hins] at h
        cases h
        exact ⟨r, rfl, by simpa using hdup, hins, rfl⟩
      · rw [if_neg hins] at h
        cases h

/-- C1 (amended): a document row is committed only if the record's filtered
definitions map is non-empty, where the filter drops only `None` values,
`"None"` values and non-dict definitions fields — empty-string definition
values are kept, so a record whose only definitions are empty strings is
still persisted (see `emptyStringDef_row_inserted`). -/
theorem committed_requires_nonempty_defs (db : DB) (p : JVal) (db2 : DB)
    (h : processPaper db p = .committed db2) :
    recordFilteredDefs p ≠ [] := by
  obtain ⟨r, hp, -, -, -⟩ := processPaper_committed_inv db p db2 h
  exact (prepPaper_ready_defs p r hp).1

/-- Witness for `committed_requires_nonempty_defs` at a concrete record
that commits from the empty database. -/
theorem committed_requires_nonempty_defs_witness :
    recordFilteredDefs wpA ≠ [] :=
  committed_requires_nonempty_defs DB.empty wpA (dumpStep DB.empty wpA) rfl

/-- C1 counterexample: the record whose single definition value is the
empty string is inserted (one stored row) although none of its filtered
definitions is a non-empty string — the persistence filter drops only
`None`/`"None"`, not empty strings. -/
theorem emptyStringDef_row_inserted :
    (dumpBatch DB.empty [cxEmptyDef]).articles.length = 1 ∧
    ∀ kv ∈ recordFilteredDefs cxEmptyDef, kv.2 = "" :=
  ⟨rfl, by decide⟩

/-- C3: a record whose processing raises is rolled back to exactly the
state before it (only its own transaction), and the batch result is as if
the failing record were absent — rows committed for other records are
untouched. -/
theorem dumpBatch_isolates_failure (db : DB) (xs ys : List JVal) (p : JVal)
    (h : processPaper (dumpBatch db xs) p = .errored) :
    dumpStep (dumpBatch db xs) p = dumpBatch db xs ∧
    dumpBatch db (xs ++ p :: ys) = dumpBatch db (xs ++ ys) := by
  have hstep : dumpStep (dumpBatch db xs) p = dumpBatch db xs := by
    rw [dumpStep, h]
  refine ⟨hstep, ?_⟩
  show List.foldl dumpStep db (xs ++ p :: ys) = List.foldl dumpStep db (xs ++ ys)
  rw [List.foldl_append, List.foldl_append, List.foldl_cons]
  exact congrArg (fun d => List.foldl dumpStep d ys) hstep

/-- Witness for `dumpBatch_isolates_failure`: the record with a JSON-null
`keywords` field raises (`TypeError` iterating `None`) between two good
records; the batch equals the batch without it. -/
theorem dumpBatch_isolates_failure_witness :
    dumpStep (dumpBatch DB.empty [wpA]) wpErr = dumpBatch DB.empty [wpA] ∧
    dumpBatch DB.empty ([wpA] ++ wpErr :: [wpB]) = dumpBatch DB.empty ([wpA] ++ [wpB]) :=
  dumpBatch_isolates_failure DB.empty [wpA] [wpB] wpErr rfl

/-- C4 (amended): persisting the very same record twice yields exactly one
new stored row *provided* its raw title or raw uuid is a string unchanged
by `strip()` — the duplicate query binds the raw values while the insert
stores them stripped, so only a trim-stable value can match its own stored
copy.  The second attempt takes the duplicate path (not the error path) and
leaves the database unchanged.  Without trim-stability the claim fails, see
`paddedRecord_inserted_twice`. -/
theorem dump_duplicate_second_attempt (db db1 : DB) (p : JVal)
    (hc : processPaper db p = .committed db1)
    (htrim : (∃ s, recordTitleRaw p = JVal.str s ∧ pyStrip s = s) ∨
             (∃ s, recordUuidRaw p = JVal.str s ∧ pyStrip s = s)) :
    processPaper db1 p = .duplicate ∧
    dumpBatch db [p, p] = db1 ∧
    db1.articles.length = db.articles.length + 1 := by
  obtain ⟨r, hp, hdup, hins, hdb⟩ := processPaper_committed_inv db p db1 hc
  obtain ⟨-, -, htr, hur⟩ := prepPaper_ready_defs p r hp
  have hdup2 : hasDuplicate db1 r.titleRaw r.uuidRaw = true := by
    subst hdb
    rw [hasDuplicate, commitRecord]
    dsimp only
    rw [List.any_append]
    have hlast : (sqlEq (mkRow db.nextId r).title r.titleRaw ||
        sqlEq (mkRow db.nextId r).uuid r.uuidRaw) = true := by
      rcases htrim with ⟨s, hts, hss⟩ | ⟨s, hus, hss⟩
      · have hts2 : r.titleRaw = JVal.str s := htr.trans hts
        have h1 : sqlEq (mkRow db.nextId r).title r.titleRaw = true := by
          simp [mkRow, hts2, pyCleanStr, hss, sqlEq, toStored]
        simp [h1]
      · have hus2 : r.uuidRaw = JVal.str s := hur.trans hus
        have h1 : sqlEq (mkRow db.nextId r).uuid r.uuidRaw = true := by
          simp [mkRow, hus2, pyCleanStr, hss, sqlEq, toStored]
        simp [h1]
    simp [List.any_cons, List.any_nil, hlast]
  have hsecond : processPaper db1 p = .duplicate := by
    rw [processPaper, hp]
    dsimp only
    rw [if_pos hdup2]
  refine ⟨hsecond, ?_, ?_⟩
  · show dumpStep (dumpStep db p) p = db1
    have h1 : dumpStep db p = db1 := by
      rw [dumpStep, hc]
    rw [h1, dumpStep, hsecond]
  · rw [hdb, commitRecord]
    simp

/-- Witness for `dump_duplicate_second_attempt`: a trim-stable record
persisted twice from the empty database. -/
theorem dump_duplicate_second_attempt_witness :
    processPaper (dumpStep DB.empty wpA) wpA = .duplicate ∧
    dumpBatch DB.empty [wpA, wpA] = dumpStep DB.empty wpA ∧
    (dumpStep DB.empty wpA).articles.length = DB.empty.articles.length + 1 :=
  dump_duplicate_second_attempt DB.empty (dumpStep DB.empty wpA) wpA rfl
    (Or.inl ⟨"T1", rfl, rfl⟩)

/-- C4 counterexample: a record whose title and uuid carry surrounding
whitespace is stored twice — the duplicate check compares the raw values
against the stripped stored ones and never matches — and the two rows even
share identical stored title and uuid, violating the claimed uniqueness. -/
theorem paddedRecord_inserted_twice :
    (dumpBatch DB.empty [cxPad, cxPad]).articles.length = 2 ∧
    (dumpBatch DB.empty [cxPad, cxPad]).articles.map (fun r => r.title) =
      [JVal.str "T5", JVal.str "T5"] ∧
    (dumpBatch DB.empty [cxPad, cxPad]).articles.map (fun r => r.uuid) =
      [JVal.str "u5", JVal.str "u5"] :=
  ⟨rfl, rfl, rfl⟩

/-- Rows touched by the upsert's update branch keep their keyword and their
definition; only `count` and `paper_references` change. -/
theorem updRow_keeps_key_def (ck : String) (c : Nat) (rs : List String)
    (r : KeywordRow) :
    ((if r.keyword = ck then
        { r with count := c, paperReferences := rs } else r).keyword = r.keyword) ∧
    ((if r.keyword = ck then
        { r with count := c, paperReferences := rs } else r).definition = r.definition) := by
  by_cases h : r.keyword = ck <;> simp [h]

/-- C2: the keyword upsert preserves the table invariant
`count = |paper_references|` (with unique keys and duplicate-free reference
sets); re-adding a reference to a document already present is a no-op (the
table value is unchanged); an update never overwrites a stored definition;
and two documents defining `"alpha"` end with one row, `count = 2`, both
ids in the reference set and the first definition kept. -/
theorem addKeywordEntry_spec (aid : Nat) (t : List KeywordRow) (kv : String × String)
    (hwf : KwTableWF t) :
    KwTableWF (addKeywordEntry aid t kv) ∧
    (∀ row ∈ t, row.keyword = pyStrip kv.1 → toString aid ∈ row.paperReferences →
      addKeywordEntry aid t kv = t) ∧
    (∀ row ∈ addKeywordEntry aid t kv, ∀ row2 ∈ t, row.keyword = row2.keyword →
      row.definition = row2.definition) ∧
    addKeywordEntry 2 (addKeywordEntry 1 [] ("alpha", "first def")) ("alpha", "second def") =
      [⟨"alpha", "first def", 2, ["1", "2"]⟩] := by
  obtain ⟨hkeys, hrows⟩ := hwf
  by_cases hck : pyStrip kv.1 = ""
  · have hid : addKeywordEntry aid t kv = t := by
      rw [addKeywordEntry]
      dsimp only
      rw [if_pos hck]
    refine ⟨by rw [hid]; exact ⟨hkeys, hrows⟩, fun _ _ _ _ => hid, ?_, rfl⟩
    intro row hrow row2 hrow2 hkw
    rw [hid] at hrow
    exact congrArg KeywordRow.definition
      (List.inj_on_of_nodup_map hkeys hrow hrow2 hkw)
  · cases hf : t.find? (fun row => row.keyword = pyStrip kv.1) with
    | none =>
      have hadd : addKeywordEntry aid t kv =
          t ++ [⟨pyStrip kv.1, pyStrip kv.2, 1, [toString aid]⟩] := by
        rw [addKeywordEntry]
        dsimp only
        rw [if_neg hck, hf]
      have hnotin : ∀ row ∈ t, ¬ (row.keyword = pyStrip kv.1) := by
        intro row hrow
        simpa using List.find?_eq_none.mp hf row hrow
      refine ⟨⟨?_, ?_⟩, ?_, ?_, rfl⟩
      · rw [hadd, List.map_append, List.nodup_append]
        refine ⟨hkeys, List.nodup_singleton _, ?_⟩
        intro x hx hxe
        obtain ⟨row, hrow, hrk⟩ := List.mem_map.mp hx
        simp at hxe
        exact hnotin row hrow (by rw [hrk, hxe])
      · intro row hrow
        rw [hadd] at hrow
        rcases List.mem_append.mp hrow with h | h
        · exact hrows row h
        · simp at h
          subst h
          exact ⟨rfl, List.nodup_singleton _⟩
      · intro row hrow hkw _
        exact absurd hkw (hnotin row hrow)
      · intro row hrow row2 hrow2 hkw
        rw [hadd] at hrow
        rcases List.mem_append.mp hrow with h | h
        · exact congrArg KeywordRow.definition
            (List.inj_on_of_nodup_map hkeys h hrow2 hkw)
        · simp at h
          subst h
          exact absurd hkw.symm (hnotin row2 hrow2)
    | some row0 =>
      have hrow0mem : row0 ∈ t := List.mem_of_find?_eq_some hf
      have hrow0kw : row0.keyword = pyStrip kv.1 := by
        simpa using List.find?_some hf
      have huniq : ∀ r ∈ t, r.keyword = pyStrip kv.1 → r = row0 := by
        intro r hr hrk
        exact List.inj_on_of_nodup_map hkeys hr hrow0mem (hrk.trans hrow0kw.symm)
      by_cases hmem : toString aid ∈ row0.paperReferences
      · have hid : addKeywordEntry aid t kv = t := by
          rw [addKeywordEntry]
          dsimp only
          rw [if_neg hck, hf]
          dsimp only
          rw [if_pos hmem]
          have heach : ∀ r ∈ t, (if r.keyword = pyStrip kv.1 then
              { r with count := row0.count, paperReferences := row0.paperReferences }
              else r) = r := by
            intro r hr
            by_cases hrk : r.keyword = pyStrip kv.1
            · rw [if_pos hrk]
              have h0 := huniq r hr hrk
              subst h0
              rfl
            · rw [if_neg hrk]
          exact (List.map_congr_left heach).trans (List.map_id' t)
        refine ⟨by rw [hid]; exact ⟨hkeys, hrows⟩, fun _ _ _ _ => hid, ?_, rfl⟩
        intro row hrow row2 hrow2 hkw
        rw [hid] at hrow
        exact congrArg KeywordRow.definition
          (List.inj_on_of_nodup_map hkeys hrow hrow2 hkw)
      · have hadd : addKeywordEntry aid t kv = t.map (fun r =>
            if r.keyword = pyStrip kv.1 then
              { r with count := row0.count + 1,
                       paperReferences := row0.paperReferences ++ [toString aid] }
            else r) := by
          rw [addKeywordEntry]
          dsimp only
          rw [if_neg hck, hf]
          dsimp only
          rw [if_neg hmem]
        have hkeyeq : (addKeywordEntry aid t kv).map (fun r => r.keyword) =
            t.map (fun r => r.keyword) := by
          rw [hadd, List.map_map]
          apply List.map_congr_left
          intro r _
          exact (updRow_keeps_key_def (pyStrip kv.1) _ _ r).1
        refine ⟨⟨?_, ?_⟩, ?_, ?_, rfl⟩
        · rw [hkeyeq]
          exact hkeys
        · intro row hrow
          rw [hadd] at hrow
          obtain ⟨r, hr, hupd⟩ := List.mem_map.mp hrow
          by_cases hrk : r.keyword = pyStrip kv.1
          · rw [if_pos hrk] at hupd
            have h0 := huniq r hr hrk
            subst h0
            subst hupd
            constructor
            · dsimp only
              rw [List.length_append, (hrows r hr).1]
              rfl
            · dsimp only
              rw [List.nodup_append]
              refine ⟨(hrows r hr).2, List.nodup_singleton _, ?_⟩
              intro x hx hxe
              simp at hxe
              subst hxe
              exact hmem hx
          · rw [if_neg hrk] at hupd
            subst hupd
            exact hrows r hr
        · intro row hrow hrk hin
          have h0 := huniq row hrow hrk
          subst h0
          exact absurd hin hmem
        · intro row hrow row2 hrow2 hkw
          rw [hadd] at hrow
          obtain ⟨r, hr, hupd⟩ := List.mem_map.mp hrow
          have hdef : row.definition = r.definition := by
            rw [← hupd]
            exact (updRow_keeps_key_def (pyStrip kv.1) _ _ r).2
          have hkey : row.keyword = r.keyword := by
            rw [← hupd]
            exact (updRow_keeps_key_def (pyStrip kv.1) _ _ r).1
          have h0 : r = row2 :=
            List.inj_on_of_nodup_map hkeys hr hrow2 (hkey ▸ hkw)
          rw [hdef, h0]

/-- Witness for `addKeywordEntry_spec`: the invariant holds after inserting
into a well-formed singleton table, and re-adding an existing reference is
a no-op. -/
theorem addKeywordEntry_spec_witness :
    KwTableWF (addKeywordEntry 1 [⟨"alpha", "d", 1, ["1"]⟩] ("beta", "e")) ∧
    addKeywordEntry 1 [⟨"alpha", "d", 1, ["1"]⟩] ("alpha", "changed") =
      [⟨"alpha", "d", 1, ["1"]⟩] := by
  constructor
  · exact (addKeywordEntry_spec 1 [⟨"alpha", "d", 1, ["1"]⟩] ("beta", "e")
      (by constructor <;> decide)).1
  · exact (addKeywordEntry_spec 1 [⟨"alpha", "d", 1, ["1"]⟩] ("alpha", "changed")
      (by constructor <;> decide)).2.1 ⟨"alpha", "d", 1, ["1"]⟩ (by decide)
      (by decide) (by decide)

/-- A record without (truthy) full text takes the skip path: both fields set
to empty, only the two counters incremented, no model request issued. -/
theorem enrichRecord_noText (k d : String × Option String) (p : SrcRecord)
    (h : recordHasText p = false) :
    enrichRecord k d p =
      ({ p with keywords := some [], definitions := some [] },
       [Event.inc "llm.papers_processed" 1,
        Event.inc "llm.papers_skipped_no_text" 1]) := by
  rw [enrichRecord]
  rcases k with ⟨kr, ke⟩
  rcases d with ⟨dr, de⟩
  rw [if_pos]
  · rfl
  · rw [h]
    rfl

/-- C8 (amended): a feed entry with no pdf-designated related link is kept
(one record per parsed entry, `pdf_url = none`) and its download is
skipped; but the enrichment stage is *also* skipped for it — such a record
never gets full text, so `generate_keywords_and_defs` takes the no-text
path: keywords/definitions are set to empty and no keyword query is ever
issued on its abstract. -/
theorem missingPdfLink_no_enrichment (uuidStr : String) (now : Int) (e : FeedEntry)
    (hl : findPdfUrl e.links = none)
    (k d : String × Option String) (uuidOf : Nat → String)
    (entries : List FeedEntry) :
    (parseEntry uuidStr now e).pdfUrl = none ∧
    downloadAttempted (parseEntry uuidStr now e) = false ∧
    (arxivRecords uuidOf now entries).length = entries.length ∧
    (enrichRecord k d (toSrcRecord (parseEntry uuidStr now e))).1.keywords = some [] ∧
    (enrichRecord k d (toSrcRecord (parseEntry uuidStr now e))).1.definitions = some [] ∧
    (∀ a, Event.kwdQuery a ∉ (enrichRecord k d (toSrcRecord (parseEntry uuidStr now e))).2) := by
  have hpdf : (parseEntry uuidStr now e).pdfUrl = none := by
    rw [parseEntry]
    exact hl
  have htext : recordHasText (toSrcRecord (parseEntry uuidStr now e)) = false := rfl
  have henrich := enrichRecord_noText k d (toSrcRecord (parseEntry uuidStr now e)) htext
  refine ⟨hpdf, ?_, ?_, ?_, ?_, ?_⟩
  · rw [downloadAttempted, hpdf]
  · rw [arxivRecords, List.length_map, List.enum_length]
  · rw [henrich]
  · rw [henrich]
  · intro a
    rw [henrich]
    simp

/-- Witness for `missingPdfLink_no_enrichment` at the concrete pdf-less
entry and a keyword oracle that would have succeeded. -/
theorem missingPdfLink_no_enrichment_witness :
    (parseEntry "u-0" 0 cxEntry).pdfUrl = none ∧
    downloadAttempted (parseEntry "u-0" 0 cxEntry) = false ∧
    (arxivRecords (fun _ => "u") 0 [cxEntry]).length = [cxEntry].length ∧
    (enrichRecord ("['alpha']", none) ("response", none)
      (toSrcRecord (parseEntry "u-0" 0 cxEntry))).1.keywords = some [] ∧
    (enrichRecord ("['alpha']", none) ("response", none)
      (toSrcRecord (parseEntry "u-0" 0 cxEntry))).1.definitions = some [] ∧
    (∀ a, Event.kwdQuery a ∉ (enrichRecord ("['alpha']", none) ("response", none)
      (toSrcRecord (parseEntry "u-0" 0 cxEntry))).2) :=
  missingPdfLink_no_enrichment "u-0" 0 cxEntry rfl
    ("['alpha']", none) ("response", none) (fun _ => "u") [cxEntry]

/-- C8 counterexample: for the concrete entry without a pdf link, the
record is kept with a null document url, yet keyword extraction is *not*
attempted on its abstract — the enrichment trace contains no keyword query
and the record ends with empty keywords, contradicting the claim that the
abstract is still enriched. -/
theorem missingPdfLink_counterexample :
    (parseEntry "u-1" 0 cxEntry).pdfUrl = none ∧
    (parseEntry "u-1" 0 cxEntry).abstract = "An abstract." ∧
    Event.kwdQuery "An abstract." ∉
      (enrichRecord ("['alpha']", none) ("\x7b'alpha': 'x'\x7d", none)
        (toSrcRecord (parseEntry "u-1" 0 cxEntry))).2 ∧
    (enrichRecord ("['alpha']", none) ("\x7b'alpha': 'x'\x7d", none)
      (toSrcRecord (parseEntry "u-1" 0 cxEntry))).1.keywords = some [] := by
  refine ⟨rfl, rfl, ?_, rfl⟩
  decide

end Aura
